import Mathlib

/-!
Verification development for the dd-tf batch synchronization tool.

The definitions below are a shallow embedding of the Go source:

* `internal/utils/httpclient.go` — the rate-limited HTTP client
  (`setPause`, `parseRetryAfter`, `backoffDuration`, `GetWithContext`);
* `internal/datadog/resource/pagination.go` — the pagination cursor
  (`NextOffsetPage`, `NextPage`);
* `internal/datadog/templating/tags.go` — tag extraction and filtering
  (`ExtractTagMap`, `HasAllTagsMap`);
* the monitors package — `GenerateMonitorTargets` (ID parsing, team filter)
  and `DownloadMonitorWithOptions`;
* the dashboards package — `normalizezDashboardID`, the by-ID branch of
  `GenerateDashboardTargets`, and `DownloadDashboardWithOptions`;
* the download command — `runDownload` (the orchestrator).

Modelling conventions: Go `time.Time` and `time.Duration` are `Int`
nanoseconds (the Go zero time is `0`, clocks are non-negative);
Go strings are lists of rune code points (`List Nat`), so that ASCII
case-folding is plain arithmetic; Go maps are association lists whose
keys are unique by construction; the HTTP transport is an oracle
mapping the attempt index to that attempt's outcome; the orchestrator's
main loop is modelled sequentially in stream order together with the
occupancy of its bounded error channel, whose inline sends can block
the loop because the channel is only drained after the loop finishes.
-/

namespace DdTf

/-! ### Strings as rune code lists -/

/-- Code points of a Lean string literal, used to write Go strings concretely. -/
def strCodes (s : String) : List Nat :=
  s.data.map Char.toNat

/-- ASCII lowercase of one code point, the model of Unicode lowering on the
ASCII inputs this development uses. -/
def lowerCode (n : Nat) : Nat :=
  if 65 ≤ n ∧ n ≤ 90 then n + 32 else n

/-- Model of Go `strings.ToLower`. -/
def lowerCodes (cs : List Nat) : List Nat :=
  cs.map lowerCode

/-- ASCII whitespace, the model of `unicode.IsSpace` on ASCII inputs. -/
def isSpaceCode (n : Nat) : Bool :=
  n = 32 || n = 9 || n = 10 || n = 13

/-- Model of Go `strings.TrimSpace`. -/
def trimCodes (cs : List Nat) : List Nat :=
  ((cs.dropWhile isSpaceCode).reverse.dropWhile isSpaceCode).reverse

/-- Decimal digit code points. -/
def isDigitCode (n : Nat) : Bool :=
  48 ≤ n && n ≤ 57

/-- Code points matched by the character class `[a-z0-9]` under the `(?i)`
flag of `dashboardIDRegex`. -/
def isAlnumCode (n : Nat) : Bool :=
  isDigitCode n || (65 ≤ n && n ≤ 90) || (97 ≤ n && n ≤ 122)

/-- Split a code list on every occurrence of the marker `m`, the model of
Go `strings.Split` with a one-character separator. -/
def splitOnCode (m : Nat) : List Nat → List (List Nat)
  | [] => [[]]
  | c :: rest =>
    if c = m then [] :: splitOnCode m rest
    else
      match splitOnCode m rest with
      | g :: gs => (c :: g) :: gs
      | [] => [[c]]

/-- Split a code list at the first colon, the model of
Go `strings.SplitN(s, ":", 2)` restricted to inputs that contain a colon
(`none` models the one-part result). -/
def breakAtColon : List Nat → Option (List Nat × List Nat)
  | [] => none
  | c :: rest =>
    if c = 58 then some ([], rest)
    else (breakAtColon rest).map fun p => (c :: p.1, p.2)

/-! ### Rate-limited HTTP client (`internal/utils/httpclient.go`) -/

/-- One second as `Int` nanoseconds (Go `time.Second`). -/
def second : Int := 1000000000

/-- One millisecond as `Int` nanoseconds (Go `time.Millisecond`). -/
def millisecond : Int := 1000000

/-- The `Retry-After` header of a 429 response: absent, an integer value, or
present but not an integer (for example an HTTP date). -/
inductive RetryAfterHeader where
  | absent
  | intVal (n : Int)
  | unparsable
deriving DecidableEq, Repr

/-- Model of `parseRetryAfter` (httpclient.go:188): a non-negative integer
header is taken as whole seconds; everything else falls through to 1s. -/
def parseRetryAfter : RetryAfterHeader → Int
  | .absent => second
  | .intVal n => if 0 ≤ n then n * second else second
  | .unparsable => second

/-- Model of `DatadogHTTPClient.setPause` (httpclient.go:175): a non-positive
duration is replaced by one second, and `pauseUntil` is overwritten with
`now + d` only when that lies strictly after the current value. -/
def setPause (now pauseUntil d : Int) : Int :=
  let d1 := if d ≤ 0 then second else d
  let proposed := now + d1
  if pauseUntil < proposed then proposed else pauseUntil

/-- The doubling loop body of `backoffDuration` (httpclient.go:150): double
`d` once per remaining iteration, stopping at the 5s cap. -/
def backoffAux : Nat → Int → Int
  | 0, d => d
  | n + 1, d =>
    if 5 * second < d * 2 then 5 * second else backoffAux n (d * 2)

/-- Model of `backoffDuration`: 500ms doubled `attempt` times, capped at 5s. -/
def backoffDuration (attempt : Nat) : Int :=
  backoffAux attempt (500 * millisecond)

/-- An HTTP response as far as the retry loop inspects it: the status code and
the `Retry-After` header. -/
structure Resp where
  statusCode : Nat
  retryAfter : RetryAfterHeader
deriving DecidableEq, Repr

/-- The outcome of one network attempt as delivered by the transport oracle. -/
inductive AttemptOutcome where
  | transportErr
  | resp (r : Resp)
deriving DecidableEq, Repr

/-- The Go errors `GetWithContext` can return: the transport error of the last
attempt, or `rateLimitedError` carrying the last wait duration. -/
inductive GoErr where
  | transport
  | rateLimited (after : Int)
deriving DecidableEq, Repr

/-- The mutable state the client threads through a request: the monotone clock
and the shared `pauseUntil` timestamp. -/
structure ClientState where
  now : Int
  pauseUntil : Int
deriving DecidableEq, Repr

/-- Model of `waitIfPaused` (httpclient.go:162): with a monotone clock and no
concurrent extension, waiting out the pause leaves the clock at
`max now pauseUntil`. -/
def waitIfPaused (st : ClientState) : ClientState :=
  { st with now := max st.now st.pauseUntil }

/-- Model of `time.Sleep d`: the clock advances by exactly `d`. -/
def sleep (st : ClientState) (d : Int) : ClientState :=
  { st with now := st.now + d }

/-- What a call to `GetWithContext` produces: the returned response and error
pair, the number of HTTP attempts issued, and the final client state. -/
structure GetOutcome where
  resp : Option Resp
  err : Option GoErr
  attempts : Nat
  final : ClientState
deriving DecidableEq, Repr

/-- The retry loop of `GetWithContext` (httpclient.go:89): `remaining` counts
the loop iterations still allowed after this one, so the Go loop index is
`attempt = retries - remaining` and `attempt < retries` is `remaining > 0`.
Each iteration waits out the pause, issues one attempt through the oracle,
and then branches exactly as the source: transport errors and 5xx retry
after an exponential backoff, 429 extends the shared pause and sleeps the
wait locally, everything else returns immediately. -/
def getLoop (retries : Nat) (oracle : Nat → AttemptOutcome) :
    Nat → ClientState → GetOutcome
  | remaining, st =>
    let attempt := retries - remaining
    let st1 := waitIfPaused st
    match oracle attempt with
    | .transportErr =>
      match remaining with
      | r + 1 =>
        let res := getLoop retries oracle r (sleep st1 (backoffDuration attempt))
        { res with attempts := res.attempts + 1 }
      | 0 => { resp := none, err := some .transport, attempts := 1, final := st1 }
    | .resp rsp =>
      if rsp.statusCode = 429 then
        let wait := parseRetryAfter rsp.retryAfter
        let st2 := { st1 with pauseUntil := setPause st1.now st1.pauseUntil wait }
        match remaining with
        | r + 1 =>
          let res := getLoop retries oracle r (sleep st2 wait)
          { res with attempts := res.attempts + 1 }
        | 0 => { resp := none, err := some (.rateLimited wait), attempts := 1, final := st2 }
      else if 500 ≤ rsp.statusCode then
        match remaining with
        | r + 1 =>
          let res := getLoop retries oracle r (sleep st1 (backoffDuration attempt))
          { res with attempts := res.attempts + 1 }
        | 0 => { resp := some rsp, err := none, attempts := 1, final := st1 }
      else { resp := some rsp, err := none, attempts := 1, final := st1 }

/-- Model of `DatadogHTTPClient.GetWithContext` (httpclient.go:82) for a client
whose retry budget is `retries`: run the loop with all `retries + 1`
iterations available. -/
def GetWithContext (retries : Nat) (oracle : Nat → AttemptOutcome)
    (st : ClientState) : GetOutcome :=
  getLoop retries oracle retries st

/-- A sequence of `setPause` calls applied to an initial `pauseUntil`, each
call supplying its own observation of the clock and its wait duration. -/
def applyPauses (p : Int) (calls : List (Int × Int)) : Int :=
  calls.foldl (fun acc c => setPause c.1 acc c.2) p

/-! ### Pagination (`internal/datadog/resource/pagination.go`) -/

/-- Model of `PaginationParams`: both cursor variants share one struct. -/
structure PaginationParams where
  Start : Int
  Count : Int
  Page : Int
  PageSize : Int
deriving DecidableEq, Repr

/-- Model of `PaginationParams.NextOffsetPage` (pagination.go:34): the updated
cursor together with the returned boolean. -/
def NextOffsetPage (p : PaginationParams) (itemsReceived : Int) :
    PaginationParams × Bool :=
  if itemsReceived = 0 ∨ itemsReceived < p.Count then (p, false)
  else ({ p with Start := p.Start + itemsReceived }, true)

/-- Model of `PaginationParams.NextPage` (pagination.go:44). -/
def NextPage (p : PaginationParams) (itemsReceived : Int) :
    PaginationParams × Bool :=
  if itemsReceived = 0 ∨ itemsReceived < p.PageSize then (p, false)
  else ({ p with Page := p.Page + 1 }, true)

/-! ### Tags (`internal/datadog/templating/tags.go` and the monitors filter) -/

/-- Replace the value under key `k` if present, append otherwise: the model of
a Go map assignment `m[k] = v` on an association list with unique keys. -/
def insertTag (m : List (List Nat × List Nat)) (k v : List Nat) :
    List (List Nat × List Nat) :=
  if m.any (fun kv => kv.1 == k) then
    m.map (fun kv => if kv.1 == k then (k, v) else kv)
  else m ++ [(k, v)]

/-- Model of `ExtractTagMap` (tags.go:11) on the unsanitized path: each raw
tag string that contains a colon contributes its trimmed key and value;
strings without a colon are skipped. -/
def ExtractTagMap (raws : List (List Nat)) : List (List Nat × List Nat) :=
  raws.foldl
    (fun m s =>
      match breakAtColon s with
      | some (k, v) => insertTag m (trimCodes k) (trimCodes v)
      | none => m)
    []

/-- Model of `HasAllTagsMap` (tags.go:34): every filter tag must equal the
lowercase rendering `key ++ ":" ++ value` of some map entry. -/
def HasAllTagsMap (tags : List (List Nat × List Nat))
    (filterTags : List (List Nat)) : Bool :=
  if filterTags.isEmpty then true
  else filterTags.all fun want =>
    let wantLower := lowerCodes want
    tags.any fun kv => lowerCodes (kv.1 ++ 58 :: kv.2) == wantLower

/-- Go map read with the zero value as default: `tags[k]` is `""` when the key
is absent. -/
def lookupTagD (tags : List (List Nat × List Nat)) (k : List Nat) : List Nat :=
  match tags.find? (fun kv => kv.1 == k) with
  | some kv => kv.2
  | none => []

/-- The code points of the literal key `"team"`. -/
def teamKey : List Nat := strCodes "team"

/-- Model of the team filter in `GenerateMonitorTargets`
(`if opts.Team != "" && tags["team"] != opts.Team { continue }`): the
monitor passes the filter exactly when that guard does not fire. -/
def monitorTeamMatches (tags : List (List Nat × List Nat))
    (team : List Nat) : Bool :=
  !(team != ([] : List Nat) && lookupTagD tags teamKey != team)

/-! ### Targets and enumeration by explicit identifiers -/

/-- Model of `resource.Target[T]` (generic over the ID type `ι` and the JSON
value type `V`): `Data = none` is the Go nil map. -/
structure Target (ι V : Type) where
  ID : ι
  Path : List Nat
  Data : Option (List (List Nat × V))
deriving DecidableEq, Repr

/-- Model of `resource.TargetResult[T]`. -/
structure TargetResult (ι V : Type) where
  target : Target ι V
  err : Option (List Nat)
deriving DecidableEq, Repr

/-- The two failure cases of `normalizezDashboardID`. -/
inductive IDErr where
  | emptyID
  | badFormat
deriving DecidableEq, Repr

/-- Model of `dashboardIDRegex` (`^(?i)[a-z0-9]+-[a-z0-9]+-[a-z0-9]+$`):
exactly three dash-separated groups, each a non-empty run of ASCII
alphanumerics. -/
def dashboardIDRegexMatches (cs : List Nat) : Bool :=
  match splitOnCode 45 cs with
  | [a, b, c] =>
    !a.isEmpty && !b.isEmpty && !c.isEmpty &&
      a.all isAlnumCode && b.all isAlnumCode && c.all isAlnumCode
  | _ => false

/-- Model of `normalizezDashboardID` (dashboards client): reject the empty ID,
reject IDs not matching the regex, and lowercase the rest. -/
def normalizezDashboardID (cs : List Nat) : Except IDErr (List Nat) :=
  if cs = [] then .error .emptyID
  else if !dashboardIDRegexMatches cs then .error .badFormat
  else .ok (lowerCodes cs)

/-- Model of the `--id` branch of the dashboards `GenerateDashboardTargets`:
one `TargetResult` per identifier, carrying only the error when validation
fails and the normalized target otherwise. The error message is modelled
by the offending identifier itself. -/
def generateDashboardTargetsByIDs (V : Type) (ids : List (List Nat)) :
    List (TargetResult (List Nat) V) :=
  ids.map fun id =>
    match normalizezDashboardID id with
    | .error _ => { target := { ID := [], Path := [], Data := none }, err := some id }
    | .ok nid => { target := { ID := nid, Path := [], Data := none }, err := none }

/-- Leading decimal digits of a code list, the digit-consuming part of
`fmt.Sscanf` with verb `%d`: scanning stops at the first non-digit. -/
def scanDigits (acc : Nat) : List Nat → Nat
  | [] => acc
  | c :: rest => if isDigitCode c then scanDigits (acc * 10 + (c - 48)) rest else acc

/-- A run of at least one leading digit, or `none`. -/
def scanDigits1 : List Nat → Option Nat
  | c :: rest => if isDigitCode c then some (scanDigits (c - 48) rest) else none
  | [] => none

/-- Model of `fmt.Sscanf(strings.TrimSpace(s), "%d", &id)`: trim, accept an
optional sign followed by at least one digit, ignore the rest. -/
def sscanfMonitorID (s : List Nat) : Option Int :=
  match trimCodes s with
  | 45 :: cs => (scanDigits1 cs).map fun n => -(n : Int)
  | 43 :: cs => (scanDigits1 cs).map fun n => (n : Int)
  | cs => (scanDigits1 cs).map fun n => (n : Int)

/-- Model of the ID-parsing loop of `GenerateMonitorTargets` (monitors
package): the whole call fails on the first identifier that does not scan,
before any target is emitted; otherwise all parsed IDs are returned. The
error is modelled by the offending identifier. -/
def parseMonitorIDs : List (List Nat) → Except (List Nat) (List Int)
  | [] => .ok []
  | s :: rest =>
    match sscanfMonitorID s with
    | none => .error s
    | some id => (parseMonitorIDs rest).map fun ids => id :: ids

/-! ### Downloads (dashboards and monitors download steps) -/

/-- What the detail fetch of a download would produce if it were issued: a
transport error, a non-200 status, a decode failure, or a payload. -/
inductive FetchRes (V : Type) where
  | transportErr
  | apiErr (status : Nat)
  | decodeErr
  | payload (p : List (List Nat × V))
deriving DecidableEq, Repr

/-- The errors a download step can return. -/
inductive DlErr where
  | invalidID (e : IDErr)
  | transport
  | apiStatus (status : Nat)
  | decode
deriving DecidableEq, Repr

/-- Model of Go `delete(result, k)` on the association-list map. -/
def eraseKey {V : Type} (p : List (List Nat × V)) (k : List Nat) :
    List (List Nat × V) :=
  p.filter fun kv => kv.1 != k

/-- The code points of the literal key `"matching_downtimes"`. -/
def matchingDowntimesKey : List Nat := strCodes "matching_downtimes"

/-- Model of `DownloadDashboardWithOptions`: validate the ID, then use
`Data` when present and otherwise fetch and decode. The first component
counts the `client.Get` calls issued; the second is the payload handed to
`WriteJSONFile` (path computation is out of scope). -/
def downloadDashboardModel {V : Type} (target : Target (List Nat) V)
    (fetch : FetchRes V) : Nat × Except DlErr (List (List Nat × V)) :=
  match normalizezDashboardID target.ID with
  | .error e => (0, .error (.invalidID e))
  | .ok _ =>
    match target.Data with
    | some d => (0, .ok d)
    | none =>
      match fetch with
      | .transportErr => (1, .error .transport)
      | .apiErr s => (1, .error (.apiStatus s))
      | .decodeErr => (1, .error .decode)
      | .payload p => (1, .ok p)

/-- Model of `DownloadMonitorWithOptions`: use `Data` when present, otherwise
fetch and decode; in every successful case delete `matching_downtimes`
before the write. The first component counts the `client.Get` calls; the
second is the payload handed to `WriteJSONFile`. -/
def downloadMonitorModel {V : Type} (target : Target Int V)
    (fetch : FetchRes V) : Nat × Except DlErr (List (List Nat × V)) :=
  match target.Data with
  | some d => (0, .ok (eraseKey d matchingDowntimesKey))
  | none =>
    match fetch with
    | .transportErr => (1, .error .transport)
    | .apiErr s => (1, .error (.apiStatus s))
    | .decodeErr => (1, .error .decode)
    | .payload p => (1, .ok (eraseKey p matchingDowntimesKey))

/-! ### Download orchestrator (`runDownload` of the download command) -/

/-- How a run of the orchestrator's main loop can end: `done` with the targets
whose download was attempted and the errors the post-loop drain collects,
or `hung` — the loop blocked forever on an inline error send with the
channel full (it is drained only after the loop), so the remaining stream
is never consumed and no outcome is ever reported. -/
inductive BoundedRun (ι V : Type) where
  | done (attempted : List (Target ι V)) (errs : List (List Nat))
  | hung (attempted : List (Target ι V))
deriving DecidableEq, Repr

/-- Model of the fan-out loop of `runDownload` including the bounded error
channel (`errCh := make(chan error, errorChannelBuffer)`). The stream is
consumed in order with `o` the current channel occupancy: an enumeration
error is sent inline — blocking the loop forever when the channel already
holds `cap` errors, since no drain runs before the loop ends — and an
error-free result has its download attempted, with a failing download's
goroutine send collected by the post-loop drain. Goroutine sends are not
counted towards `o`: they can only fill the channel further, so a `hung`
verdict of this model is certain in the program. -/
def runDownload {ι V : Type} (cap : Nat)
    (download : Target ι V → Option (List Nat)) :
    List (TargetResult ι V) → Nat → BoundedRun ι V
  | [], _ => .done [] []
  | r :: rest, o =>
    match r.err with
    | some e =>
      if o = cap then .hung []
      else
        match runDownload cap download rest (o + 1) with
        | .done att errs => .done att (e :: errs)
        | .hung att => .hung att
    | none =>
      match download r.target with
      | some e =>
        match runDownload cap download rest o with
        | .done att errs => .done (r.target :: att) (e :: errs)
        | .hung att => .hung (r.target :: att)
      | none =>
        match runDownload cap download rest o with
        | .done att errs => .done (r.target :: att) errs
        | .hung att => .hung (r.target :: att)

/-- The channel capacity `errorChannelBuffer = 8` of the download command. -/
def errorChannelBuffer : Nat := 8

/-! ### Supporting lemmas -/

/-- `setPause` is the max of the current value and the clamped proposal. -/
theorem setPause_eq_max (now p d : Int) :
    setPause now p d = max p (now + if d ≤ 0 then second else d) := by
  simp only [setPause, max_def]
  split_ifs <;> omega

/-- Behaviour of the retry loop when every attempt yields a 429 with
`Retry-After: 0`: every iteration retries, so the loop uses all its
iterations and ends with the rate-limit error carrying wait `0`. -/
theorem getLoop_all429zero (retries : Nat) (oracle : Nat → AttemptOutcome)
    (h : ∀ i, oracle i = .resp ⟨429, .intVal 0⟩) :
    ∀ remaining st,
      (getLoop retries oracle remaining st).resp = none ∧
      (getLoop retries oracle remaining st).err = some (.rateLimited 0) ∧
      (getLoop retries oracle remaining st).attempts = remaining + 1 := by
  intro remaining
  induction remaining with
  | zero =>
    intro st
    rw [getLoop, h]
    norm_num [parseRetryAfter]
  | succ r ih =>
    intro st
    rw [getLoop, h]
    norm_num [parseRetryAfter]
    exact ⟨(ih _).1, (ih _).2.1, (ih _).2.2⟩

/-- Behaviour of the retry loop when every attempt yields a 5xx response: every
iteration retries, and the loop ends by returning the response of its last
iteration (attempt index `retries`) with a nil error. -/
theorem getLoop_all5xx (retries : Nat) (oracle : Nat → AttemptOutcome)
    (h : ∀ i, ∃ rsp, oracle i = .resp rsp ∧ 500 ≤ rsp.statusCode) :
    ∀ remaining st,
      (getLoop retries oracle remaining st).err = none ∧
      (getLoop retries oracle remaining st).attempts = remaining + 1 ∧
      ∃ rsp, oracle retries = .resp rsp ∧ 500 ≤ rsp.statusCode ∧
        (getLoop retries oracle remaining st).resp = some rsp := by
  intro remaining
  induction remaining with
  | zero =>
    intro st
    obtain ⟨rsp, ho, h5⟩ := h (retries - 0)
    rw [Nat.sub_zero] at ho
    have h429 : ¬ rsp.statusCode = 429 := by omega
    rw [getLoop, Nat.sub_zero, ho]
    simp only [if_neg h429, if_pos h5]
    exact ⟨trivial, trivial, rsp, rfl, h5, rfl⟩
  | succ r ih =>
    intro st
    obtain ⟨rsp, ho, h5⟩ := h (retries - (r + 1))
    have h429 : ¬ rsp.statusCode = 429 := by omega
    rw [getLoop, ho]
    simp only [if_neg h429, if_pos h5]
    exact ⟨(ih _).1, by rw [(ih _).2.1], (ih _).2.2⟩

/-- Lowering a code point yields a colon only for the colon itself. -/
theorem lowerCode_eq_colon (n : Nat) : lowerCode n = 58 ↔ n = 58 := by
  unfold lowerCode
  split_ifs with h <;> omega

/-- Membership of the colon is preserved by lowering. -/
theorem colon_mem_lowerCodes (cs : List Nat) :
    (58 : Nat) ∈ lowerCodes cs ↔ (58 : Nat) ∈ cs := by
  unfold lowerCodes
  rw [List.mem_map]
  constructor
  · rintro ⟨a, ha, he⟩
    rwa [(lowerCode_eq_colon a).mp he] at ha
  · intro h
    exact ⟨58, h, rfl⟩

/-- Two colon-joined strings are equal iff their parts are, provided neither
left part contains a colon. -/
theorem append_colon_inj (a : List Nat) (u : List Nat) (ha : (58 : Nat) ∉ a) :
    ∀ b v, (58 : Nat) ∉ b → (a ++ 58 :: u = b ++ 58 :: v ↔ a = b ∧ u = v) := by
  induction a with
  | nil =>
    intro b v hb
    cases b with
    | nil => simp
    | cons y ys =>
      simp only [List.nil_append, List.cons_append, List.cons.injEq]
      constructor
      · rintro ⟨h1, _⟩
        exact absurd (h1 ▸ List.mem_cons_self y ys) hb
      · rintro ⟨h, _⟩
        simp at h
  | cons x xs ih =>
    intro b v hb
    cases b with
    | nil =>
      simp only [List.cons_append, List.nil_append, List.cons.injEq]
      constructor
      · rintro ⟨h1, _⟩
        exact absurd (h1 ▸ List.mem_cons_self x xs) ha
      · rintro ⟨h, _⟩
        simp at h
    | cons y ys =>
      have hxs : (58 : Nat) ∉ xs := fun hmem => ha (List.mem_cons_of_mem _ hmem)
      have hys : (58 : Nat) ∉ ys := fun hmem => hb (List.mem_cons_of_mem _ hmem)
      simp only [List.cons_append, List.cons.injEq]
      rw [ih hxs ys v hys]
      tauto

/-- Lowering distributes over the colon join. -/
theorem lowerCodes_join (k v : List Nat) :
    lowerCodes (k ++ 58 :: v) = lowerCodes k ++ 58 :: lowerCodes v := by
  simp [lowerCodes, lowerCode]

/-- Case-insensitive equality of colon-joined tags is componentwise when the
keys are colon-free. -/
theorem joined_lower_eq_iff (k1 v1 k2 v2 : List Nat)
    (h1 : (58 : Nat) ∉ k1) (h2 : (58 : Nat) ∉ k2) :
    lowerCodes (k1 ++ 58 :: v1) = lowerCodes (k2 ++ 58 :: v2) ↔
      lowerCodes k1 = lowerCodes k2 ∧ lowerCodes v1 = lowerCodes v2 := by
  rw [lowerCodes_join, lowerCodes_join]
  exact append_colon_inj (lowerCodes k1) (lowerCodes v1)
    (fun hm => h1 ((colon_mem_lowerCodes k1).mp hm)) _ _
    (fun hm => h2 ((colon_mem_lowerCodes k2).mp hm))

/-- Propositional characterization of `HasAllTagsMap`. -/
theorem hasAllTagsMap_iff (tags : List (List Nat × List Nat))
    (fts : List (List Nat)) :
    HasAllTagsMap tags fts = true ↔
      ∀ w ∈ fts, ∃ kv ∈ tags, lowerCodes (kv.1 ++ 58 :: kv.2) = lowerCodes w := by
  unfold HasAllTagsMap
  split_ifs with h
  · rw [List.isEmpty_iff] at h
    simp [h]
  · simp only [List.all_eq_true, List.any_eq_true, beq_iff_eq]

/-! ### Claim theorems -/

/-- Claim C1, counterexample: at current pause state `pauseUntil = 5·10^8`
(0.5s past the epoch) and clock `now = 0`, a proposed pause duration of `0`
has `now + wait = 0`, which does not lie after the current `pauseUntil`;
the claim therefore requires `pauseUntil` to stay at `5·10^8`, but
`setPause` moves it to `10^9` because it clamps non-positive durations to
one second. -/
theorem c1_pause_monotonic_counterexample :
    setPause 0 500000000 0 = 1000000000 ∧
    ¬ (500000000 < (0 : Int) + 0) ∧
    (1000000000 : Int) ≠ 500000000 := by
  decide

/-- Claim C1, amended: `setPause` never moves `pauseUntil` backward; a
proposed duration `d` is first clamped to one second when `d ≤ 0`, and the
new value is the maximum of the current `pauseUntil` and `now + clamped d`;
consequently after any sequence of `setPause` calls the effective
pause-until timestamp is the maximum of the initial value and all clamped
proposed pause-until values. -/
theorem c1_pause_monotonic_amended :
    (∀ now p d : Int, p ≤ setPause now p d) ∧
    (∀ now p d : Int,
      setPause now p d = max p (now + if d ≤ 0 then second else d)) ∧
    (∀ (p : Int) (calls : List (Int × Int)),
      applyPauses p calls =
        calls.foldl (fun acc c => max acc (c.1 + if c.2 ≤ 0 then second else c.2)) p) := by
  refine ⟨?_, setPause_eq_max, ?_⟩
  · intro now p d
    rw [setPause_eq_max]
    exact le_max_left _ _
  · intro p calls
    induction calls generalizing p with
    | nil => rfl
    | cons c rest ih =>
      simp only [applyPauses, List.foldl_cons] at ih ⊢
      rw [setPause_eq_max]
      exact ih _

/-- Claim C2: if every attempt receives HTTP 429 with `Retry-After: 0`, a
client with retry budget `R` makes exactly `R + 1` attempts and returns a
nil response with the distinguished rate-limit error carrying the wait
duration (here 0s); a client whose first attempt receives a 404 makes
exactly one attempt and returns that response with a nil error. -/
theorem c2_retry_budget (R : Nat) (oracle : Nat → AttemptOutcome)
    (st : ClientState) (h429 : ∀ i, oracle i = .resp ⟨429, .intVal 0⟩)
    (oracleB : Nat → AttemptOutcome) (stB : ClientState)
    (ra : RetryAfterHeader) (h404 : oracleB (R - R) = .resp ⟨404, ra⟩) :
    ((GetWithContext R oracle st).resp = none ∧
     (GetWithContext R oracle st).err = some (.rateLimited 0) ∧
     (GetWithContext R oracle st).attempts = R + 1) ∧
    ((GetWithContext R oracleB stB).resp = some ⟨404, ra⟩ ∧
     (GetWithContext R oracleB stB).err = none ∧
     (GetWithContext R oracleB stB).attempts = 1) := by
  constructor
  · exact getLoop_all429zero R oracle h429 R st
  · rw [GetWithContext, getLoop.eq_def]
    dsimp only
    rw [h404]
    norm_num

/-- Witness for C2 at retry budget 2, a constant all-429 transport and a
constant 404 transport. -/
theorem c2_retry_budget_witness :
    ((GetWithContext 2 (fun _ => .resp ⟨429, .intVal 0⟩) ⟨0, 0⟩).resp = none ∧
     (GetWithContext 2 (fun _ => .resp ⟨429, .intVal 0⟩) ⟨0, 0⟩).err
        = some (.rateLimited 0) ∧
     (GetWithContext 2 (fun _ => .resp ⟨429, .intVal 0⟩) ⟨0, 0⟩).attempts = 2 + 1) ∧
    ((GetWithContext 2 (fun _ => .resp ⟨404, .absent⟩) ⟨0, 0⟩).resp
        = some ⟨404, .absent⟩ ∧
     (GetWithContext 2 (fun _ => .resp ⟨404, .absent⟩) ⟨0, 0⟩).err = none ∧
     (GetWithContext 2 (fun _ => .resp ⟨404, .absent⟩) ⟨0, 0⟩).attempts = 1) :=
  c2_retry_budget 2 _ ⟨0, 0⟩ (fun _ => rfl) _ ⟨0, 0⟩ .absent rfl

/-- Claim C7, counterexample: a 429 with `Retry-After: 0` at clock 0 and no
current pause leaves `pauseUntil = 10^9` (one second), not `now + 0 = 0`
as the claim requires, because `setPause` clamps non-positive waits to one
second; moreover a parsable negative `Retry-After` also defaults to 1s, so
the default does not apply "exactly when the header is absent or
unparsable". -/
theorem c7_429_pause_counterexample :
    (GetWithContext 0 (fun _ => .resp ⟨429, .intVal 0⟩) ⟨0, 0⟩).final.pauseUntil
      = 1000000000 ∧
    (1000000000 : Int) ≠ 0 + 0 ∧
    parseRetryAfter (.intVal (-5)) = second := by
  decide

/-- Claim C7, amended: on a 429 the wait duration is the `Retry-After` header
parsed as whole seconds when non-negative, defaulting to 1s when the
header is absent, unparsable, or negative; the shared pause window is
extended to `now + wait` only if that lies beyond the current pause,
except that a non-positive wait (in particular `Retry-After: 0`) is
clamped to one second by `setPause`, so a `Retry-After: 0` extends the
window to `now + 1s` rather than `now + 0`. Stated on a single-attempt
client so the final state is the state after the 429 handling. -/
theorem c7_429_pause_amended (h : RetryAfterHeader) (st : ClientState) :
    (GetWithContext 0 (fun _ => .resp ⟨429, h⟩) st).resp = none ∧
    (GetWithContext 0 (fun _ => .resp ⟨429, h⟩) st).err
      = some (.rateLimited (parseRetryAfter h)) ∧
    (GetWithContext 0 (fun _ => .resp ⟨429, h⟩) st).final.pauseUntil
      = max st.pauseUntil (max st.now st.pauseUntil +
          if parseRetryAfter h ≤ 0 then second else parseRetryAfter h) ∧
    parseRetryAfter .absent = second ∧
    parseRetryAfter .unparsable = second ∧
    (∀ n : Int, 0 ≤ n → parseRetryAfter (.intVal n) = n * second) ∧
    (∀ n : Int, n < 0 → parseRetryAfter (.intVal n) = second) := by
  refine ⟨?_, ?_, ?_, rfl, rfl, ?_, ?_⟩
  · rw [GetWithContext, getLoop]
    norm_num
  · rw [GetWithContext, getLoop]
    norm_num
  · rw [GetWithContext, getLoop]
    norm_num [waitIfPaused, setPause_eq_max]
  · intro n hn
    simp [parseRetryAfter, hn]
  · intro n hn
    simp [parseRetryAfter, not_le.mpr hn]

/-- Witness for the amended C7 theorem at a concrete header and state. -/
theorem c7_429_pause_amended_witness :
    (GetWithContext 0 (fun _ => .resp ⟨429, .intVal 7⟩) ⟨0, 0⟩).err
      = some (.rateLimited (parseRetryAfter (.intVal 7))) ∧
    parseRetryAfter (.intVal 7) = 7 * second ∧
    parseRetryAfter (.intVal (-3)) = second :=
  ⟨(c7_429_pause_amended (.intVal 7) ⟨0, 0⟩).2.1,
   (c7_429_pause_amended (.intVal 7) ⟨0, 0⟩).2.2.2.2.2.1 7 (by norm_num),
   (c7_429_pause_amended (.intVal 7) ⟨0, 0⟩).2.2.2.2.2.2 (-3) (by norm_num)⟩

/-- Claim C8: if every attempt yields a status of at least 500, the client
exhausts its budget of `R + 1` attempts and returns the last 5xx response
itself (the response of attempt index `R`) together with a nil error. -/
theorem c8_5xx_returns_response (R : Nat) (oracle : Nat → AttemptOutcome)
    (st : ClientState)
    (h : ∀ i, ∃ rsp, oracle i = .resp rsp ∧ 500 ≤ rsp.statusCode) :
    (GetWithContext R oracle st).err = none ∧
    (GetWithContext R oracle st).attempts = R + 1 ∧
    ∃ rsp, oracle R = .resp rsp ∧ 500 ≤ rsp.statusCode ∧
      (GetWithContext R oracle st).resp = some rsp :=
  getLoop_all5xx R oracle h R st

/-- Witness for C8 at retry budget 1 and a constant 503 transport. -/
theorem c8_5xx_returns_response_witness :
    (GetWithContext 1 (fun _ => .resp ⟨503, .absent⟩) ⟨0, 0⟩).err = none ∧
    (GetWithContext 1 (fun _ => .resp ⟨503, .absent⟩) ⟨0, 0⟩).attempts = 1 + 1 ∧
    ∃ rsp, AttemptOutcome.resp ⟨503, .absent⟩ = .resp rsp ∧
      500 ≤ rsp.statusCode ∧
      (GetWithContext 1 (fun _ => .resp ⟨503, .absent⟩) ⟨0, 0⟩).resp = some rsp :=
  c8_5xx_returns_response 1 _ ⟨0, 0⟩
    (fun _ => ⟨⟨503, .absent⟩, rfl, by norm_num⟩)

/-- Claim C3, counterexample: with `Count = 2` and `itemsReceived = 3` the
code reports "more" and advances, although `itemsReceived ≠ Count`, so
"more iff `itemsReceived == Count`" fails; with `Count = 0` and
`itemsReceived = 0` the code reports no more data although
`itemsReceived = Count`; `NextPage` fails the same way with `PageSize`. -/
theorem c3_pagination_counterexample :
    (NextOffsetPage ⟨0, 2, 0, 0⟩ 3).2 = true ∧ ¬ ((3 : Int) = 2) ∧
    (NextOffsetPage ⟨0, 0, 0, 0⟩ 0).2 = false ∧ ((0 : Int) = 0) ∧
    (NextPage ⟨0, 0, 0, 2⟩ 3).2 = true ∧ ¬ ((3 : Int) = 2) := by
  decide

/-- Claim C3, amended: `NextOffsetPage` returns false and leaves the cursor
unchanged when `itemsReceived = 0` or `itemsReceived < Count`, and
otherwise advances `Start` by `itemsReceived` and returns true, so "more"
is reported iff `itemsReceived ≠ 0` and `itemsReceived ≥ Count`; under the
additional assumption `0 ≤ itemsReceived ≤ Count` (a server never returns
more items than requested) this is equivalent to `itemsReceived = Count`
with `Count ≠ 0`; `NextPage` behaves identically with `PageSize` and
`Page + 1`. -/
theorem c3_pagination_amended (p : PaginationParams) (n : Int) :
    (n = 0 ∨ n < p.Count → NextOffsetPage p n = (p, false)) ∧
    (n ≠ 0 → p.Count ≤ n →
      NextOffsetPage p n = ({ p with Start := p.Start + n }, true)) ∧
    ((NextOffsetPage p n).2 = true ↔ n ≠ 0 ∧ p.Count ≤ n) ∧
    (0 ≤ n → n ≤ p.Count →
      ((NextOffsetPage p n).2 = true ↔ n = p.Count ∧ p.Count ≠ 0)) ∧
    (n = 0 ∨ n < p.PageSize → NextPage p n = (p, false)) ∧
    (n ≠ 0 → p.PageSize ≤ n →
      NextPage p n = ({ p with Page := p.Page + 1 }, true)) ∧
    ((NextPage p n).2 = true ↔ n ≠ 0 ∧ p.PageSize ≤ n) ∧
    (0 ≤ n → n ≤ p.PageSize →
      ((NextPage p n).2 = true ↔ n = p.PageSize ∧ p.PageSize ≠ 0)) := by
  unfold NextOffsetPage NextPage
  refine ⟨?_, ?_, ?_, ?_, ?_, ?_, ?_, ?_⟩ <;>
    · intros
      split_ifs <;> simp_all <;> omega

/-- Witness for the amended C3 theorem at concrete cursors. -/
theorem c3_pagination_amended_witness :
    NextOffsetPage ⟨0, 2, 7, 9⟩ 2 = (⟨2, 2, 7, 9⟩, true) ∧
    NextPage ⟨0, 2, 7, 9⟩ 4 = (⟨0, 2, 7, 9⟩, false) :=
  ⟨(c3_pagination_amended ⟨0, 2, 7, 9⟩ 2).2.1 (by decide) (by decide),
   (c3_pagination_amended ⟨0, 2, 7, 9⟩ 4).2.2.2.2.1 (by decide)⟩

/-- Claim C5, counterexample: the tag map extracted from `["TEAM:platform"]`
satisfies the filter `["team:platform"]` under `HasAllTagsMap`
(case-insensitive), but the monitors team convenience constraint with
team `platform` rejects the same tag map, because it reads the map at the
exact key `"team"` and compares case-sensitively — so the team constraint
is not equivalent to a `team:<value>` tag under the same case-insensitive
matching. -/
theorem c5_tag_filter_counterexample :
    HasAllTagsMap (ExtractTagMap [strCodes "TEAM:platform"])
      [strCodes "team:platform"] = true ∧
    monitorTeamMatches (ExtractTagMap [strCodes "TEAM:platform"])
      (strCodes "platform") = false := by
  decide

/-- Claim C5, amended: `HasAllTagsMap` matches iff every required `key:value`
filter tag is present under case-insensitive comparison of both key and
value (stated for colon-free keys, which splitting on the first colon
guarantees), and the empty filter set matches every tag list; the team
convenience constraint of the monitors enumerator, however, is a
case-sensitive equality between the tag map's value at the exact key
`"team"` (empty when absent) and the requested team, not the
case-insensitive `team:<value>` tag match (which the dashboards
enumerator uses). -/
theorem c5_tag_filter_amended (tags : List (List Nat × List Nat))
    (fts : List (List Nat × List Nat)) (team : List Nat)
    (htags : ∀ kv ∈ tags, (58 : Nat) ∉ kv.1)
    (hfts : ∀ f ∈ fts, (58 : Nat) ∉ f.1) :
    (HasAllTagsMap tags (fts.map fun f => f.1 ++ 58 :: f.2) = true ↔
      ∀ f ∈ fts, ∃ kv ∈ tags,
        lowerCodes kv.1 = lowerCodes f.1 ∧ lowerCodes kv.2 = lowerCodes f.2) ∧
    HasAllTagsMap tags [] = true ∧
    (monitorTeamMatches tags team = true ↔
      team = [] ∨ lookupTagD tags teamKey = team) := by
  refine ⟨?_, rfl, ?_⟩
  · rw [hasAllTagsMap_iff]
    constructor
    · intro h f hf
      obtain ⟨kv, hkv, he⟩ := h _ (List.mem_map_of_mem _ hf)
      exact ⟨kv, hkv,
        (joined_lower_eq_iff kv.1 kv.2 f.1 f.2 (htags kv hkv) (hfts f hf)).mp he⟩
    · intro h w hw
      obtain ⟨f, hf, rfl⟩ := List.mem_map.mp hw
      obtain ⟨kv, hkv, he⟩ := h f hf
      exact ⟨kv, hkv,
        (joined_lower_eq_iff kv.1 kv.2 f.1 f.2 (htags kv hkv) (hfts f hf)).mpr he⟩
  · unfold monitorTeamMatches
    by_cases hteam : team = []
    · subst hteam
      simp
    · simp [bne, hteam]

/-- Witness for the amended C5 theorem at concrete tag maps. -/
theorem c5_tag_filter_amended_witness :
    HasAllTagsMap
      [(strCodes "TEAM", strCodes "platform"), (strCodes "env", strCodes "PROD")]
      ([(strCodes "team", strCodes "platform"), (strCodes "env", strCodes "prod")].map
        fun f => f.1 ++ 58 :: f.2) = true ∧
    HasAllTagsMap [(strCodes "TEAM", strCodes "platform")] [] = true ∧
    monitorTeamMatches [(strCodes "team", strCodes "x")] (strCodes "x") = true :=
  ⟨(c5_tag_filter_amended
      [(strCodes "TEAM", strCodes "platform"), (strCodes "env", strCodes "PROD")]
      [(strCodes "team", strCodes "platform"), (strCodes "env", strCodes "prod")]
      [] (by decide) (by decide)).1.mpr (by decide),
   (c5_tag_filter_amended [(strCodes "TEAM", strCodes "platform")] [] []
      (by decide) (by decide)).2.1,
   (c5_tag_filter_amended [(strCodes "team", strCodes "x")] [] (strCodes "x")
      (by decide) (by decide)).2.2.mpr (Or.inr (by decide))⟩

/-- Claim C4 (code bug): nine enumeration-error results followed by one valid
target — reachable from the CLI as `--id` with nine malformed dashboard
IDs and one valid ID — hang the orchestrator: the ninth inline `errCh`
send blocks with the capacity-8 channel full and no drain running, so the
valid target's download is never attempted and no outcome is reported,
although its download would succeed. The second and third conjuncts pin
the boundary: with only eight errors, or with a capacity of nine, the run
completes, attempts the valid target's download, and collects every error
for the failure report — the behaviour the claim, the channel's own
"to prevent blocking" comment, and the spec all require. -/
theorem c4_error_channel_hang :
    runDownload (ι := Nat) (V := Nat) errorChannelBuffer (fun _ => none)
      (List.replicate 9 ⟨⟨0, [], none⟩, some (strCodes "bad")⟩ ++
        [⟨⟨1, [], none⟩, none⟩]) 0
      = .hung [] ∧
    runDownload (ι := Nat) (V := Nat) errorChannelBuffer (fun _ => none)
      (List.replicate 8 ⟨⟨0, [], none⟩, some (strCodes "bad")⟩ ++
        [⟨⟨1, [], none⟩, none⟩]) 0
      = .done [⟨1, [], none⟩] (List.replicate 8 (strCodes "bad")) ∧
    runDownload (ι := Nat) (V := Nat) 9 (fun _ => none)
      (List.replicate 9 ⟨⟨0, [], none⟩, some (strCodes "bad")⟩ ++
        [⟨⟨1, [], none⟩, none⟩]) 0
      = .done [⟨1, [], none⟩] (List.replicate 9 (strCodes "bad")) :=
  ⟨rfl, rfl, rfl⟩

/-- Claim C6: when `Data` is present, neither download step issues any fetch
through the HTTP client, and the payload each hands to the writer is taken
from `Data` (for monitors, `Data` with the `matching_downtimes` key
deleted). -/
theorem c6_cached_payload_skip {V : Type} (tD : Target (List Nat) V)
    (tM : Target Int V) (f g : FetchRes V)
    (d dM : List (List Nat × V)) (hD : tD.Data = some d) (hM : tM.Data = some dM) :
    (downloadDashboardModel tD f).1 = 0 ∧
    (∀ p, (downloadDashboardModel tD f).2 = .ok p → p = d) ∧
    (downloadMonitorModel tM g).1 = 0 ∧
    (downloadMonitorModel tM g).2 = .ok (eraseKey dM matchingDowntimesKey) := by
  refine ⟨?_, ?_, ?_, ?_⟩
  · cases hn : normalizezDashboardID tD.ID <;>
      simp [downloadDashboardModel, hn, hD]
  · intro p hp
    cases hn : normalizezDashboardID tD.ID <;>
      simp [downloadDashboardModel, hn, hD] at hp
    exact hp.symm
  · simp [downloadMonitorModel, hM]
  · simp [downloadMonitorModel, hM]

/-- Witness for C6 at concrete cached targets. -/
theorem c6_cached_payload_skip_witness :
    (downloadDashboardModel (V := Nat)
      ⟨strCodes "abc-def-123", [], some [(strCodes "title", 1)]⟩ .transportErr).1 = 0 ∧
    (downloadMonitorModel (V := Nat)
      ⟨5, [], some [(matchingDowntimesKey, 2), (strCodes "name", 3)]⟩ .transportErr).1 = 0 ∧
    (downloadMonitorModel (V := Nat)
      ⟨5, [], some [(matchingDowntimesKey, 2), (strCodes "name", 3)]⟩ .transportErr).2
      = .ok (eraseKey [(matchingDowntimesKey, 2), (strCodes "name", 3)]
          matchingDowntimesKey) ∧
    ([(strCodes "title", 1)] : List (List Nat × Nat)) = [(strCodes "title", 1)] :=
  ⟨(c6_cached_payload_skip ⟨strCodes "abc-def-123", [], some [(strCodes "title", 1)]⟩
      ⟨5, [], some [(matchingDowntimesKey, 2), (strCodes "name", 3)]⟩
      .transportErr .transportErr _ _ rfl rfl).1,
   (c6_cached_payload_skip ⟨strCodes "abc-def-123", [], some [(strCodes "title", 1)]⟩
      ⟨5, [], some [(matchingDowntimesKey, 2), (strCodes "name", 3)]⟩
      .transportErr .transportErr _ _ rfl rfl).2.2.1,
   (c6_cached_payload_skip ⟨strCodes "abc-def-123", [], some [(strCodes "title", 1)]⟩
      ⟨5, [], some [(matchingDowntimesKey, 2), (strCodes "name", 3)]⟩
      .transportErr .transportErr _ _ rfl rfl).2.2.2,
   (c6_cached_payload_skip ⟨strCodes "abc-def-123", [], some [(strCodes "title", 1)]⟩
      ⟨5, [], some [(matchingDowntimesKey, 2), (strCodes "name", 3)]⟩
      .transportErr .transportErr _ _ rfl rfl).2.1 [(strCodes "title", 1)] rfl⟩

/-- Claim C9, counterexample: for the monitors enumerator, the identifier list
`["abc", "123"]` contains the invalid identifier `"abc"`; the claim
requires a `TargetResult` carrying only the error followed by one target
for the valid `"123"`, but the code aborts the whole call with an error
before emitting anything, so the valid identifier yields no target. -/
theorem c9_validation_abort_counterexample :
    parseMonitorIDs [strCodes "abc", strCodes "123"] = .error (strCodes "abc") ∧
    sscanfMonitorID (strCodes "123") = some 123 :=
  ⟨rfl, rfl⟩

/-- Claim C9, amended: for the dashboards enumerator the claim holds — every
identifier yields exactly one `TargetResult`, carrying only the error when
validation fails and the normalized target otherwise; the monitors
enumerator, however, aborts the whole enumeration with an error on the
first identifier that fails to parse, before any target is emitted, and
only emits targets when every identifier parses. -/
theorem c9_validation_amended (V : Type) (ids : List (List Nat))
    (idStrs : List (List Nat)) :
    (generateDashboardTargetsByIDs V ids).length = ids.length ∧
    (∀ id ∈ ids, ∀ e, normalizezDashboardID id = .error e →
      ∃ r ∈ generateDashboardTargetsByIDs V ids, r.err = some id) ∧
    (∀ id ∈ ids, ∀ nid, normalizezDashboardID id = .ok nid →
      ∃ r ∈ generateDashboardTargetsByIDs V ids,
        r.err = none ∧ r.target.ID = nid) ∧
    ((∃ s ∈ idStrs, sscanfMonitorID s = none) →
      ∃ e, parseMonitorIDs idStrs = .error e) ∧
    ((∀ s ∈ idStrs, ∃ n, sscanfMonitorID s = some n) →
      ∃ ns, parseMonitorIDs idStrs = .ok ns ∧ ns.length = idStrs.length) := by
  refine ⟨?_, ?_, ?_, ?_, ?_⟩
  · simp [generateDashboardTargetsByIDs]
  · intro id hid e he
    refine ⟨_, List.mem_map_of_mem _ hid, ?_⟩
    rw [he]
  · intro id hid nid hn
    refine ⟨_, List.mem_map_of_mem _ hid, ?_⟩
    rw [hn]
    exact ⟨rfl, rfl⟩
  · induction idStrs with
    | nil => rintro ⟨s, hs, _⟩; simp at hs
    | cons s rest ih =>
      rintro ⟨w, hw, hwn⟩
      cases hs : sscanfMonitorID s with
      | none => exact ⟨s, by rw [parseMonitorIDs, hs]⟩
      | some n =>
        rcases List.mem_cons.mp hw with rfl | hw'
        · rw [hs] at hwn
          exact absurd hwn (by simp)
        · obtain ⟨e, he⟩ := ih ⟨w, hw', hwn⟩
          refine ⟨e, ?_⟩
          rw [parseMonitorIDs, hs, he]
          rfl
  · induction idStrs with
    | nil => intro _; exact ⟨[], rfl, rfl⟩
    | cons s rest ih =>
      intro hall
      obtain ⟨n, hn⟩ := hall s (List.mem_cons_self s rest)
      obtain ⟨ns, hns, hlen⟩ := ih fun w hw => hall w (List.mem_cons_of_mem _ hw)
      refine ⟨n :: ns, ?_, by simp [hlen]⟩
      rw [parseMonitorIDs, hn, hns]
      rfl

/-- Witness for the amended C9 theorem: one invalid and one valid dashboard
identifier, and the two monitors scenarios. -/
theorem c9_validation_amended_witness :
    (generateDashboardTargetsByIDs Unit
      [strCodes "bad id", strCodes "ABC-def-123"]).length = 2 ∧
    (∃ r ∈ generateDashboardTargetsByIDs Unit
        [strCodes "bad id", strCodes "ABC-def-123"],
      r.err = some (strCodes "bad id")) ∧
    (∃ r ∈ generateDashboardTargetsByIDs Unit
        [strCodes "bad id", strCodes "ABC-def-123"],
      r.err = none ∧ r.target.ID = strCodes "abc-def-123") ∧
    (∃ e, parseMonitorIDs [strCodes "abc"] = .error e) ∧
    (∃ ns, parseMonitorIDs [strCodes "7"] = .ok ns ∧ ns.length = 1) :=
  ⟨(c9_validation_amended Unit [strCodes "bad id", strCodes "ABC-def-123"] []).1,
   (c9_validation_amended Unit [strCodes "bad id", strCodes "ABC-def-123"] []).2.1
      (strCodes "bad id") (by simp) .badFormat rfl,
   (c9_validation_amended Unit [strCodes "bad id", strCodes "ABC-def-123"] []).2.2.1
      (strCodes "ABC-def-123") (by simp) (strCodes "abc-def-123") rfl,
   (c9_validation_amended Unit [] [strCodes "abc"]).2.2.2.1
      ⟨strCodes "abc", by simp, rfl⟩,
   (c9_validation_amended Unit [] [strCodes "7"]).2.2.2.2
      (fun s hs => by
        rw [List.mem_singleton] at hs
        subst hs
        exact ⟨7, rfl⟩)⟩

/-- The `matching_downtimes` key never survives `eraseKey`. -/
theorem find_eraseKey {V : Type} (p : List (List Nat × V)) (k : List Nat) :
    (eraseKey p k).find? (fun kv => kv.1 == k) = none := by
  rw [List.find?_eq_none]
  intro x hx
  rw [eraseKey, List.mem_filter] at hx
  simpa using hx.2

/-- Claim C10: every payload `DownloadMonitorWithOptions` passes to the
storage writer — whether taken from `Target.Data` or fetched from the
API — contains no `matching_downtimes` key, because the key is deleted
after either branch and before the write. -/
theorem c10_matching_downtimes (V : Type) (t : Target Int V)
    (fetch : FetchRes V) (p : List (List Nat × V))
    (hp : (downloadMonitorModel t fetch).2 = .ok p) :
    p.find? (fun kv => kv.1 == matchingDowntimesKey) = none := by
  rcases t with ⟨id, path, data⟩
  cases data with
  | some d =>
    simp [downloadMonitorModel] at hp
    rw [← hp]
    exact find_eraseKey d matchingDowntimesKey
  | none =>
    cases fetch <;> simp [downloadMonitorModel] at hp
    rw [← hp]
    exact find_eraseKey _ matchingDowntimesKey

/-- Witness for C10 at a concrete cached monitor payload. -/
theorem c10_matching_downtimes_witness :
    ([(strCodes "name", 3)] : List (List Nat × Nat)).find?
      (fun kv => kv.1 == matchingDowntimesKey) = none :=
  c10_matching_downtimes Nat
    ⟨5, [], some [(matchingDowntimesKey, 2), (strCodes "name", 3)]⟩
    .transportErr [(strCodes "name", 3)] rfl

end DdTf
